import Mathlib

/-!
Shallow embedding of cbindgen's `src/bindgen/bindings.rs` (the `Bindings`
emission backend): alias/transparency resolution, field-order merging,
header/body emission, namespace open/close, depfile generation, and the
write-if-changed controller.  Types such as `Config`, `ItemMap`,
`SourceWriter` and the per-item writers live outside the given source
file; the parts of them this file needs are modelled from the spec and
marked as such in their doc comments.
-/

namespace Cbindgen

/-- A canonical path (`bindgen::ir::Path`); equality is exact textual
identity, so we embed it as a string. -/
abbrev BindgenPath := String

/-- Modelled from the spec: the output language selector
(`bindgen::config::Language`), a closed enumeration of the three dialects
native-C, native-C++ and foreign-module (Cython). -/
inductive Language where
  | c
  | cxx
  | cython
deriving DecidableEq

/-- Modelled from the spec: the subset of `bindgen::config::Config` that the
emission backend reads.  All fields are fully resolved and immutable.
`nspace`/`nspaces` embed the `namespace`/`namespaces` options (renamed
because `namespace` is a keyword here); `cython_cimports` is the
foreign-module import table (module, name list); `config_path` is the
optional configuration-file path folded into the depfile. -/
structure Config where
  language : Language
  cpp_compat : Bool
  header : Option String
  include_guard : Option String
  package_version : Bool
  pragma_once : Bool
  include_version : Bool
  autogen_warning : Option String
  no_includes : Bool
  sys_includes : List String
  includes : List String
  cython_cimports : List (String × List String)
  cython_header : Option String
  after_includes : Option String
  usize_is_size_t : Bool
  cast_assert_name : Option String
  derive_mut_casts : Bool
  derive_const_casts : Bool
  nspace : Option String
  nspaces : Option (List String)
  using_namespaces : Option (List String)
  trailer : Option String
  config_path : Option String

/-- Modelled from the spec: `Config::cpp_compatible_c`, the dual-linkage
(cpp-compatible C) mode: the native-C dialect with `cpp_compat` set. -/
def Config.cpp_compatible_c (c : Config) : Bool :=
  c.language == Language.c && c.cpp_compat

/-- A struct instantiation as the backend sees it: its field names in
declaration order and its ABI-transparency flag (`Struct::is_transparent`). -/
structure StructDef where
  fields : List String
  is_transparent : Bool
deriving DecidableEq

/-- The shape of a typedef's aliased type: either a bare named-type
reference (`Type::Path`) or anything else. -/
inductive Ty where
  | path (p : BindgenPath)
  | other
deriving DecidableEq

/-- A typedef item: only its aliased type matters to the resolver. -/
structure TypedefDef where
  aliased : Ty
deriving DecidableEq

/-- Modelled from the spec: `ItemMap<T>`, a multi-valued map from canonical
path to all definitions sharing that path, embedded as an association list
in insertion order. -/
def ItemMap (α : Type) : Type := List (BindgenPath × α)

/-- Modelled from the spec: `ItemMap::for_items` visits every item bound at
a path in insertion order; this returns that list of items. -/
def ItemMap.itemsAt {α : Type} (m : ItemMap α) (p : BindgenPath) : List α :=
  m.filterMap (fun e => if e.1 = p then some e.2 else none)

/-- A constant as the body orchestrator sees it: its name and whether it
uses only primitive types (`Constant::uses_only_primitive_types`, modelled
from the spec as a precomputed flag). -/
structure ConstantDef where
  name : String
  uses_only_primitive_types : Bool
deriving DecidableEq

/-- The kinds of items that can appear in `Bindings::items`
(`ItemContainer` minus the `Constant`/`Static` variants, which are
unreachable there). -/
inductive ItemKind where
  | enumItem
  | structItem
  | unionItem
  | opaqueItem
  | typedefItem
deriving DecidableEq

/-- A non-constant, non-global item: its kind, name and whether its
annotations set the `no-export` flag (modelled from the spec as a
precomputed flag on the annotation set). -/
structure ItemDef where
  kind : ItemKind
  name : String
  no_export : Bool
deriving DecidableEq

/-- The `Bindings` engine: configuration, the two multi-valued lookup maps,
the ordered item collections, the contributing source files, the nested
no-op flag and the package version string.  The `struct_fileds_memo` cache
is omitted: it only memoizes the pure `struct_field_names` computation. -/
structure Bindings where
  config : Config
  struct_map : ItemMap StructDef
  typedef_map : ItemMap TypedefDef
  globals : List String
  constants : List ConstantDef
  items : List ItemDef
  functions : List String
  source_files : List String
  noop : Bool
  package_version : String

/-- One iteration of the loop in `Bindings::resolved_struct_path`: visit
every typedef bound at the path and record the aliased path of each one
whose aliased type is a bare named reference; the closure overwrites
`found`, so the last such item wins.  `none` means the loop stops here. -/
def stepTypedef (m : ItemMap TypedefDef) (p : BindgenPath) : Option BindgenPath :=
  ((m.itemsAt p).filterMap (fun td =>
    match td.aliased with
    | Ty.path q => some q
    | Ty.other => none)).getLast?

/-- `Bindings::resolved_struct_path`, with explicit fuel standing in for
the unbounded `loop`: peel typedefs while a binding aliases a bare named
type.  `none` means the fuel ran out before the loop stopped, which is how
this embedding observes non-termination of the source loop. -/
def resolveFuel (m : ItemMap TypedefDef) : Nat → BindgenPath → Option BindgenPath
  | 0, _ => none
  | fuel + 1, p =>
    match stepTypedef m p with
    | none => some p
    | some q => resolveFuel m fuel q

/-- The iterates of `stepTypedef` from a starting path: `iterates m p k` is
the path the loop holds after `k` replacements, or `none` if the loop
already stopped strictly before step `k`. -/
def iterates (m : ItemMap TypedefDef) (p : BindgenPath) : Nat → Option BindgenPath
  | 0 => some p
  | k + 1 => (iterates m p k).bind (stepTypedef m)

/-- The alias graph has no cycle reachable from `p`: the loop's iterates
never revisit a path. -/
def NoAliasCycleFrom (m : ItemMap TypedefDef) (p : BindgenPath) : Prop :=
  ∀ i j q, i < j → iterates m p i = some q → iterates m p j = some q → False

/-- `Bindings::struct_is_transparent`: true iff any struct instantiation
bound at the given path (looked up directly, without resolving typedefs)
is marked transparent. -/
def struct_is_transparent (b : Bindings) (p : BindgenPath) : Bool :=
  (b.struct_map.itemsAt p).any (fun s => s.is_transparent)

/-- `Bindings::struct_exists`: resolve the path through typedefs, then ask
whether any struct instantiation is bound at the resolved path.  Fuel as in
`resolveFuel`; `none` means the resolution loop did not finish. -/
def struct_exists (b : Bindings) (fuel : Nat) (p : BindgenPath) : Option Bool :=
  (resolveFuel b.typedef_map fuel p).map
    (fun q => !(b.struct_map.itemsAt q).isEmpty)

/-- The inner loop of `Bindings::struct_field_names` for one struct
instantiation: fold over its fields keeping the merged list and the
insertion cursor `pos`; a field already present moves the cursor to just
after its position, a new field is inserted at the cursor. -/
def mergeInst (fields : List String) (instFields : List String) : List String :=
  (instFields.foldl
    (fun (acc : List String × Nat) name =>
      match acc.1.findIdx? (fun v => v = name) with
      | some found_pos => (acc.1, found_pos + 1)
      | none => (acc.1.insertIdx acc.2 name, acc.2 + 1))
    (fields, 0)).1

/-- The merge in `Bindings::struct_field_names` across every struct
instantiation bound at an (already resolved) path, in discovery order. -/
def structFieldNamesAt (b : Bindings) (q : BindgenPath) : List String :=
  (b.struct_map.itemsAt q).foldl (fun fields st => mergeInst fields st.fields) []

/-- `Bindings::struct_field_names` without the memo cache (the cache only
stores this pure result): resolve the path, then merge the field orders of
every instantiation bound there.  Fuel as in `resolveFuel`. -/
def struct_field_names (b : Bindings) (fuel : Nat) (p : BindgenPath) :
    Option (List String) :=
  (resolveFuel b.typedef_map fuel p).map (structFieldNamesAt b)

/-- Modelled from the spec: one `SourceWriter` emission event.  The
low-level text-layout primitives (`write`/`write!`, `new_line`,
`new_line_if_not_start`, `open_brace`, `close_brace`) are external to the
source file, so each call is recorded as one event; the external per-item
writers (`Constant::write`, item writers, `Static::write`,
`Function::write`) are recorded as opaque tagged events carrying the item's
name. -/
inductive Emit where
  | str (s : String)
  | newLine
  | newLineIfNotStart
  | openBrace
  | closeBrace (semicolon : Bool)
  | constOut (name : String)
  | itemOut (name : String)
  | globalOut (name : String)
  | functionOut (name : String)
deriving DecidableEq

/-- The cbindgen version string spliced into the generated-with banner
(`bindgen::config::VERSION`, external; modelled from the spec as an
abstract constant). -/
def cbindgenVersion : String := "0.0.0"

/-- The part of `Bindings::write_headers` before the include/import block:
verbatim header, include guard open, package-version banner, pragma-once
(skipped for Cython), generator-version banner, autogen warning. -/
def headerPreamble (b : Bindings) : List Emit :=
  (match b.config.header with
   | some f => [Emit.newLineIfNotStart, Emit.str f, Emit.newLine]
   | none => []) ++
  (match b.config.include_guard with
   | some f => [Emit.newLineIfNotStart, Emit.str ("#ifndef " ++ f), Emit.newLine,
                Emit.str ("#define " ++ f), Emit.newLine]
   | none => []) ++
  (if b.config.package_version then
     [Emit.newLineIfNotStart,
      Emit.str ("/* Package version: " ++ b.package_version ++ " */"), Emit.newLine]
   else []) ++
  (if b.config.pragma_once && !(b.config.language == Language.cython) then
     [Emit.newLineIfNotStart, Emit.str "#pragma once", Emit.newLine]
   else []) ++
  (if b.config.include_version then
     [Emit.newLineIfNotStart,
      Emit.str ("/* Generated with cbindgen:" ++ cbindgenVersion ++ " */"), Emit.newLine]
   else []) ++
  (match b.config.autogen_warning with
   | some f => [Emit.newLineIfNotStart, Emit.str f, Emit.newLine]
   | none => [])

/-- The early-exit condition guarding the include/import block of
`Bindings::write_headers`, exactly as the source writes it. -/
def skipIncludeBlock (c : Config) : Bool :=
  c.no_includes && c.sys_includes.isEmpty && c.includes.isEmpty &&
    (c.cython_cimports.isEmpty || !(c.language == Language.cython)) &&
    c.after_includes.isNone

/-- The per-dialect standard includes emitted when `no_includes` is off. -/
def standardIncludes (c : Config) : List Emit :=
  match c.language with
  | Language.c =>
    [Emit.str "#include <stdarg.h>", Emit.newLine,
     Emit.str "#include <stdbool.h>", Emit.newLine] ++
    (if c.usize_is_size_t then [Emit.str "#include <stddef.h>", Emit.newLine] else []) ++
    [Emit.str "#include <stdint.h>", Emit.newLine,
     Emit.str "#include <stdlib.h>", Emit.newLine]
  | Language.cxx =>
    [Emit.str "#include <cstdarg>", Emit.newLine] ++
    (if c.usize_is_size_t then [Emit.str "#include <cstddef>", Emit.newLine] else []) ++
    [Emit.str "#include <cstdint>", Emit.newLine,
     Emit.str "#include <cstdlib>", Emit.newLine,
     Emit.str "#include <ostream>", Emit.newLine,
     Emit.str "#include <new>", Emit.newLine] ++
    (if c.cast_assert_name.isNone && (c.derive_mut_casts || c.derive_const_casts) then
       [Emit.str "#include <cassert>", Emit.newLine]
     else [])
  | Language.cython =>
    [Emit.str "from libc.stdint cimport int8_t, int16_t, int32_t, int64_t, intptr_t",
     Emit.newLine,
     Emit.str "from libc.stdint cimport uint8_t, uint16_t, uint32_t, uint64_t, uintptr_t",
     Emit.newLine,
     Emit.str "cdef extern from *", Emit.openBrace,
     Emit.str "ctypedef bint bool", Emit.newLine,
     Emit.str "ctypedef struct va_list", Emit.newLine,
     Emit.closeBrace false]

/-- The include/import block of `Bindings::write_headers`: empty when the
early-exit condition holds, otherwise a leading line break, the standard
includes (unless `no_includes`), configured system and local includes,
Cython cimport lines, and the verbatim after-includes text. -/
def includeBlock (b : Bindings) : List Emit :=
  if skipIncludeBlock b.config then []
  else
    Emit.newLineIfNotStart ::
    ((if !b.config.no_includes then standardIncludes b.config else []) ++
     b.config.sys_includes.flatMap
       (fun i => [Emit.str ("#include <" ++ i ++ ">"), Emit.newLine]) ++
     b.config.includes.flatMap
       (fun i => [Emit.str ("#include \"" ++ i ++ "\""), Emit.newLine]) ++
     (if b.config.language == Language.cython then
        b.config.cython_cimports.flatMap
          (fun mi => [Emit.str ("from " ++ mi.1 ++ " cimport " ++
                                String.intercalate ", " mi.2), Emit.newLine])
      else []) ++
     (match b.config.after_includes with
      | some l => [Emit.str l, Emit.newLine]
      | none => []))

/-- `Bindings::write_headers`: a no-op when the engine is flagged no-op,
otherwise the preamble followed by the include/import block. -/
def write_headers (b : Bindings) : List Emit :=
  if b.noop then [] else headerPreamble b ++ includeBlock b

/-- `NamespaceOperation`. -/
inductive NamespaceOperation where
  | opOpen
  | opClose
deriving DecidableEq

/-- `Bindings::all_namespaces`: empty unless the dialect is native-C++ or
dual-linkage cpp-compatible C; otherwise the primary namespace followed by
the extra namespaces. -/
def all_namespaces (b : Bindings) : List String :=
  if !(b.config.language == Language.cxx) && !b.config.cpp_compatible_c then []
  else
    (match b.config.nspace with
     | some n => [n]
     | none => []) ++
    (match b.config.nspaces with
     | some ns => ns
     | none => [])

/-- `Bindings::open_close_namespaces`: Cython emits a single external
context open/close pair; otherwise, with a non-empty namespace list
(reversed for Close), the namespace lines are emitted, wrapped in the
dual-linkage preprocessor guard when cpp-compatible C is on. -/
def open_close_namespaces (b : Bindings) (op : NamespaceOperation) : List Emit :=
  if b.config.language == Language.cython then
    if op == NamespaceOperation.opOpen then
      [Emit.newLine,
       Emit.str ("cdef extern from " ++ (b.config.cython_header.getD "*")),
       Emit.openBrace]
    else [Emit.closeBrace false]
  else
    let namespaces := all_namespaces b
    if namespaces.isEmpty then []
    else
      let namespaces :=
        if op == NamespaceOperation.opClose then namespaces.reverse else namespaces
      (if b.config.cpp_compatible_c then
         [Emit.newLineIfNotStart, Emit.str "#ifdef __cplusplus"]
       else []) ++
      namespaces.flatMap (fun n =>
        [Emit.newLine,
         Emit.str (match op with
                   | NamespaceOperation.opOpen => "namespace " ++ n ++ " \x7b"
                   | NamespaceOperation.opClose => "\x7d // namespace " ++ n)]) ++
      [Emit.newLine] ++
      (if b.config.cpp_compatible_c then
         [Emit.str "#endif // __cplusplus", Emit.newLine]
       else [])

/-- `Bindings::open_namespaces`. -/
def open_namespaces (b : Bindings) : List Emit :=
  open_close_namespaces b NamespaceOperation.opOpen

/-- `Bindings::close_namespaces`. -/
def close_namespaces (b : Bindings) : List Emit :=
  open_close_namespaces b NamespaceOperation.opClose

/-- The body of `Bindings::write` between `open_namespaces` and
`close_namespaces`: primitive-only constants, exportable items, remaining
constants, then (if any function or global exists) the linkage-bridging
region with every global then every function, then the Cython empty-body
placeholder. -/
def bodyEmits (b : Bindings) : List Emit :=
  b.constants.flatMap (fun c =>
    if c.uses_only_primitive_types then
      [Emit.newLineIfNotStart, Emit.constOut c.name, Emit.newLine]
    else []) ++
  b.items.flatMap (fun i =>
    if i.no_export then []
    else [Emit.newLineIfNotStart, Emit.itemOut i.name, Emit.newLine]) ++
  b.constants.flatMap (fun c =>
    if !c.uses_only_primitive_types then
      [Emit.newLineIfNotStart, Emit.constOut c.name, Emit.newLine]
    else []) ++
  (if !b.functions.isEmpty || !b.globals.isEmpty then
     (if b.config.cpp_compatible_c then
        [Emit.newLineIfNotStart, Emit.str "#ifdef __cplusplus"]
      else []) ++
     (if b.config.language == Language.cxx then
        match b.config.using_namespaces with
        | some using_namespaces =>
          using_namespaces.flatMap (fun n =>
            [Emit.newLine, Emit.str ("using namespace " ++ n ++ ";")]) ++
          [Emit.newLine]
        | none => []
      else []) ++
     (if b.config.language == Language.cxx || b.config.cpp_compatible_c then
        [Emit.newLine, Emit.str "extern \"C\" \x7b", Emit.newLine]
      else []) ++
     (if b.config.cpp_compatible_c then
        [Emit.str "#endif // __cplusplus", Emit.newLine]
      else []) ++
     b.globals.flatMap (fun g =>
       [Emit.newLineIfNotStart, Emit.globalOut g, Emit.newLine]) ++
     b.functions.flatMap (fun f =>
       [Emit.newLineIfNotStart, Emit.functionOut f, Emit.newLine]) ++
     (if b.config.cpp_compatible_c then
        [Emit.newLine, Emit.str "#ifdef __cplusplus"]
      else []) ++
     (if b.config.language == Language.cxx || b.config.cpp_compatible_c then
        [Emit.newLine, Emit.str "\x7d // extern \"C\"", Emit.newLine]
      else []) ++
     (if b.config.cpp_compatible_c then
        [Emit.str "#endif // __cplusplus", Emit.newLine]
      else [])
   else []) ++
  (if b.config.language == Language.cython && b.globals.isEmpty &&
      b.constants.isEmpty && b.items.isEmpty && b.functions.isEmpty then
     [Emit.str "pass"]
   else [])

/-- The trailer of `Bindings::write` after `close_namespaces`: include
guard close (dialect-dependent comment style) and the verbatim trailer
text (with a final line break only when the text does not already end in
one). -/
def trailerEmits (b : Bindings) : List Emit :=
  (match b.config.include_guard with
   | some f =>
     [Emit.newLineIfNotStart,
      Emit.str (if b.config.language == Language.c then
                  "#endif /* " ++ f ++ " */"
                else "#endif // " ++ f),
      Emit.newLine]
   | none => []) ++
  (match b.config.trailer with
   | some f =>
     [Emit.newLineIfNotStart, Emit.str f] ++
     (if !(f.endsWith "\n") then [Emit.newLine] else [])
   | none => [])

/-- `Bindings::write`: a no-op when the engine is flagged no-op, otherwise
headers, namespace open, the body, namespace close and the trailer, in
that fixed order. -/
def write (b : Bindings) : List Emit :=
  if b.noop then []
  else
    write_headers b ++ open_namespaces b ++ bodyEmits b ++
    close_namespaces b ++ trailerEmits b

/-- Whether an emission event is the output of one constant, item, global
or function writer (as opposed to layout text emitted by the orchestrator
itself). -/
def isItemOut : Emit → Bool
  | Emit.constOut _ => true
  | Emit.itemOut _ => true
  | Emit.globalOut _ => true
  | Emit.functionOut _ => true
  | _ => false

/-- The subsequence of item-writer outputs of an emission stream, in
order. -/
def outsOf (es : List Emit) : List Emit := es.filter isItemOut

/-- The in-memory filesystem the write-if-changed controller acts on: an
association list from destination path to file content (first binding
wins).  File content is the emission stream the engine streams or buffers
into it. -/
def FS : Type := List (String × List Emit)

/-- Look a path up in the filesystem; `none` means the file does not
exist. -/
def fsLookup (fs : FS) (p : String) : Option (List Emit) :=
  (List.find? (fun e => e.1 == p) fs).map (fun e => e.2)

/-- Create or overwrite a file. -/
def fsSet (fs : FS) (p : String) (v : List Emit) : FS := (p, v) :: fs

/-- One observable filesystem-level action of `Bindings::write_to_file`,
in the order the source performs them. -/
inductive FsEvent where
  | createDirAll
  | createFile
  | streamRenderToFile
  | renderToBuffer
  | readOldFile
  | writeBufferToFile
deriving DecidableEq

/-- The outcome of one `Bindings::write_to_file` call: the filesystem
afterwards, the returned changed flag, and the trace of filesystem-level
actions in order. -/
structure WriteOutcome where
  fs : FS
  changed : Bool
  trace : List FsEvent

/-- `Bindings::write_to_file`: no-op engines return false untouched; a
missing destination gets its parent directories created and the rendered
output streamed straight into the newly created file (returning true); an
existing destination is compared byte-for-byte against a freshly rendered
in-memory buffer and only overwritten (returning true) when the contents
differ. -/
def write_to_file (b : Bindings) (fs : FS) (dest : String) : WriteOutcome :=
  if b.noop then ⟨fs, false, []⟩
  else
    match fsLookup fs dest with
    | none =>
      ⟨fsSet fs dest (write b), true,
       [FsEvent.createDirAll, FsEvent.createFile, FsEvent.streamRenderToFile]⟩
    | some old_file_contents =>
      let new_file_contents := write b
      if old_file_contents ≠ new_file_contents then
        ⟨fsSet fs dest new_file_contents, true,
         [FsEvent.renderToBuffer, FsEvent.readOldFile,
          FsEvent.createFile, FsEvent.writeBufferToFile]⟩
      else
        ⟨fs, false, [FsEvent.renderToBuffer, FsEvent.readOldFile]⟩

/-- The depfile whitespace escaping: every space is replaced by a
backslash-space pair (`.replace(' ', "\\ ")`). -/
def escapeSpaces : List Char → List Char
  | [] => []
  | c :: rest =>
    if c = ' ' then '\\' :: ' ' :: escapeSpaces rest
    else c :: escapeSpaces rest

/-- The lexicographic sort of the canonicalized source paths
(`sort_unstable`; the sorting algorithm itself is external, any sorted
permutation is the same list because path equality is textual). -/
def sortPaths (l : List String) : List String :=
  List.insertionSort (fun a b => a ≤ b) l

/-- The four-space continuation indent of the depfile. -/
def indent4 : List Char := [' ', ' ', ' ', ' ']

/-- The bytes `Bindings::generate_depfile` writes, as characters:
canonicalize the header and all contributing source paths (plus the
configuration file path if any) through the ambient `canon` function, sort
the source paths, then emit the escaped header, a colon, one
space-backslash-newline-indent continuation per source path with its
escaped canonical path, and a final newline. -/
def depfileContent (canon : String → String) (header_path : String)
    (source_files : List String) (config_path : Option String) : List Char :=
  let canon_source_files := (source_files ++ config_path.toList).map canon
  let sorted := sortPaths canon_source_files
  escapeSpaces (canon header_path).data ++
    ':' :: (sorted.flatMap (fun s =>
      ' ' :: '\\' :: '\n' :: (indent4 ++ escapeSpaces s.data))) ++
    ['\n']

/-- `Bindings::generate_depfile` for an engine: its source files and its
configuration's optional config path feed `depfileContent`. -/
def generate_depfile (b : Bindings) (canon : String → String)
    (header_path : String) : List Char :=
  depfileContent canon header_path b.source_files b.config.config_path

/-- Split a character stream at newline characters: `splitOnNl s` is the
list of lines of `s`, where every newline terminates a line and a final
newline therefore leaves a trailing empty entry. -/
def splitOnNl : List Char → List (List Char)
  | [] => [[]]
  | c :: rest =>
    if c = '\n' then [] :: splitOnNl rest
    else
      match splitOnNl rest with
      | [] => [[c]]
      | l :: ls => (c :: l) :: ls

/-- The pair of events one namespace-open line produces. -/
def nsOpenLine (n : String) : List Emit :=
  [Emit.newLine, Emit.str ("namespace " ++ n ++ " \x7b")]

/-- The pair of events one namespace-close line produces. -/
def nsCloseLine (n : String) : List Emit :=
  [Emit.newLine, Emit.str ("\x7d // namespace " ++ n)]

/-- The dual-linkage conditional guard opening shared by namespace Open and
Close. -/
def nsGuardPre (b : Bindings) : List Emit :=
  if b.config.cpp_compatible_c then
    [Emit.newLineIfNotStart, Emit.str "#ifdef __cplusplus"]
  else []

/-- The trailing line break and dual-linkage guard close shared by
namespace Open and Close. -/
def nsGuardPost (b : Bindings) : List Emit :=
  Emit.newLine ::
    (if b.config.cpp_compatible_c then
       [Emit.str "#endif // __cplusplus", Emit.newLine]
     else [])

/-- Modelled from the spec: the continuation lines the depfile claim
asserts, over already-escaped source paths — every source path becomes one
four-space-indented line, each but the last ending in a space and a
line-continuation backslash, and the final newline leaves one trailing
empty entry. -/
def contLinesSpec : List (List Char) → List (List Char)
  | [] => [[]]
  | s :: rest =>
    match rest with
    | [] => [indent4 ++ s, []]
    | _ :: _ => (indent4 ++ s ++ [' ', '\\']) :: contLinesSpec rest

/-- Modelled from the spec: the full line shape of the depfile — the
escaped header line ending in a colon (and, when continuations follow, a
space and a continuation backslash), then the continuation lines. -/
def depfileLinesSpec (hdrLine : List Char) (srcs : List (List Char)) :
    List (List Char) :=
  match srcs with
  | [] => [hdrLine ++ [':'], []]
  | _ :: _ => (hdrLine ++ [':', ' ', '\\']) :: contLinesSpec srcs

/-- A fully defaulted configuration: native-C dialect, everything off or
empty, `no_includes` on. -/
def cfg0 : Config :=
  { language := Language.c, cpp_compat := false, header := none,
    include_guard := none, package_version := false, pragma_once := false,
    include_version := false, autogen_warning := none, no_includes := true,
    sys_includes := [], includes := [], cython_cimports := [],
    cython_header := none, after_includes := none, usize_is_size_t := false,
    cast_assert_name := none, derive_mut_casts := false,
    derive_const_casts := false, nspace := none, nspaces := none,
    using_namespaces := none, trailer := none, config_path := none }

/-- An engine with the defaulted configuration and empty collections, not
flagged no-op. -/
def emptyBindings : Bindings :=
  { config := cfg0, struct_map := [], typedef_map := [], globals := [],
    constants := [], items := [], functions := [], source_files := [],
    noop := false, package_version := "" }

/-- A concrete alias chain A→B→C with a single transparent struct
instantiation bound at C and nothing bound at A or B. -/
def aliasChainBindings : Bindings :=
  { emptyBindings with
    typedef_map := [("A", ⟨Ty.path "B"⟩), ("B", ⟨Ty.path "C"⟩)],
    struct_map := [("C", ⟨["f"], true⟩)] }

/-- A malformed two-element typedef alias cycle A→B→A. -/
def cycleTypedefMap : ItemMap TypedefDef :=
  [("A", ⟨Ty.path "B"⟩), ("B", ⟨Ty.path "A"⟩)]

/-- A native-C++ engine with a primary namespace and one extra namespace
configured. -/
def cxxNsBindings : Bindings :=
  { emptyBindings with
    config := { cfg0 with
                language := Language.cxx
                nspace := some "root"
                nspaces := some ["sub"] } }

/-- A plain native-C engine (no dual linkage) that nonetheless has
namespaces configured. -/
def cNsBindings : Bindings :=
  { emptyBindings with
    config := { cfg0 with nspace := some "root", nspaces := some ["sub"] } }

/-- An engine with two unsorted contributing source files, one containing
a space, and no configuration-file path. -/
def depBindings : Bindings :=
  { emptyBindings with source_files := ["b b.rs", "a.rs"] }

/-- A native-C++ engine exercising every body segment: a primitive-only
constant, a struct-typed constant, an exported and an export-suppressed
item, one global and one function. -/
def sampleBindings : Bindings :=
  { emptyBindings with
    config := { cfg0 with language := Language.cxx },
    constants := [⟨"PRIM", true⟩, ⟨"COMPOUND", false⟩],
    items := [⟨ItemKind.enumItem, "E", false⟩, ⟨ItemKind.structItem, "S", true⟩,
              ⟨ItemKind.typedefItem, "T", false⟩],
    globals := ["G"],
    functions := ["F"] }

/-- A struct map with two instantiations at one canonical path, with field
orders `[x, y]` and `[x, z, y]`. -/
def mergeBindings : Bindings :=
  { emptyBindings with
    struct_map := [("P", ⟨["x", "y"], false⟩), ("P", ⟨["x", "z", "y"], false⟩)] }

end Cbindgen

namespace Cbindgen

theorem resolveFuel_step {m : ItemMap TypedefDef} {p q : BindgenPath} (n : Nat)
    (h : stepTypedef m p = some q) :
    resolveFuel m (n + 1) p = resolveFuel m n q := by
  simp [resolveFuel, h]

theorem resolveFuel_stop {m : ItemMap TypedefDef} {p : BindgenPath} (n : Nat)
    (h : stepTypedef m p = none) :
    resolveFuel m (n + 1) p = some p := by
  simp [resolveFuel, h]

/-- C3: `struct_field_names` merges the instantiation field orders at a
canonical path with an insertion cursor, so orders `[x, y]` and
`[x, z, y]` merge to `[x, z, y]`. -/
theorem struct_field_names_insertion_cursor_merge
    (b : Bindings) (q : BindgenPath) (x y z : String) (t1 t2 : Bool)
    (hxy : x ≠ y) (hxz : x ≠ z) (hyz : y ≠ z)
    (hstep : stepTypedef b.typedef_map q = none)
    (hst : b.struct_map.itemsAt q = [⟨[x, y], t1⟩, ⟨[x, z, y], t2⟩]) :
    struct_field_names b 1 q = some [x, z, y] := by
  have h0 : resolveFuel b.typedef_map 1 q = some q := resolveFuel_stop 0 hstep
  simp only [struct_field_names, h0, Option.map_some]
  simp [structFieldNamesAt, hst, mergeInst, List.findIdx?_cons, List.findIdx?,
        hxy, hxz, hyz, Ne.symm hxy, Ne.symm hxz, Ne.symm hyz]

end Cbindgen

namespace Cbindgen

theorem struct_field_names_insertion_cursor_merge_witness :
    struct_field_names mergeBindings 1 "P" = some ["x", "z", "y"] :=
  struct_field_names_insertion_cursor_merge mergeBindings "P" "x" "y" "z"
    false false (by decide) (by decide) (by decide) (by decide) (by decide)

/-- C1 as stated is false: on the concrete alias chain A→B→C with a
transparent struct bound at C, canonicalizing A does yield C and
`struct_exists A` holds, but `struct_is_transparent` does not canonicalize
its argument, so `struct_is_transparent A` is false while
`struct_is_transparent C` is true. -/
theorem struct_is_transparent_no_canonicalize_cex :
    resolveFuel aliasChainBindings.typedef_map 3 "A" = some "C" ∧
    struct_exists aliasChainBindings 3 "A" = some true ∧
    struct_is_transparent aliasChainBindings "C" = true ∧
    struct_is_transparent aliasChainBindings "A" = false := by
  refine ⟨by decide, by decide, by decide, by decide⟩

/-- C1 amended: for an alias chain A→B→C with at least one struct bound at
C and none bound directly at A, canonicalizing A yields C and
`struct_exists A` is true, but `struct_is_transparent A` is false because
the transparency lookup is performed at the given path without resolving
typedefs. -/
theorem alias_chain_resolution_amended
    (b : Bindings) (A B C : BindgenPath) (fuel : Nat)
    (hA : stepTypedef b.typedef_map A = some B)
    (hB : stepTypedef b.typedef_map B = some C)
    (hC : stepTypedef b.typedef_map C = none)
    (hCs : b.struct_map.itemsAt C ≠ [])
    (hAs : b.struct_map.itemsAt A = [])
    (hfuel : 3 ≤ fuel) :
    resolveFuel b.typedef_map fuel A = some C ∧
    struct_exists b fuel A = some true ∧
    struct_is_transparent b A = false := by
  obtain ⟨k, rfl⟩ := Nat.exists_eq_add_of_le hfuel
  have hres : resolveFuel b.typedef_map (3 + k) A = some C := by
    have e1 : 3 + k = (2 + k) + 1 := by omega
    have e2 : 2 + k = (1 + k) + 1 := by omega
    have e3 : 1 + k = k + 1 := by omega
    rw [e1, resolveFuel_step _ hA, e2, resolveFuel_step _ hB, e3,
        resolveFuel_stop _ hC]
  refine ⟨hres, ?_, ?_⟩
  · simp [struct_exists, hres, List.isEmpty_eq_false.mpr hCs]
  · simp [struct_is_transparent, hAs]

theorem alias_chain_resolution_amended_witness :
    resolveFuel aliasChainBindings.typedef_map 3 "A" = some "C" ∧
    struct_exists aliasChainBindings 3 "A" = some true ∧
    struct_is_transparent aliasChainBindings "A" = false :=
  alias_chain_resolution_amended aliasChainBindings "A" "B" "C" 3
    (by decide) (by decide) (by decide) (by decide) (by decide) (by decide)

/-- C10: when the dialect is neither native-C++ nor cpp-compatible C, the
resolved namespace list is empty regardless of configured namespaces, and
in the plain native-C dialect both namespace operations emit nothing. -/
theorem plain_c_namespaces_empty :
    (∀ b : Bindings, b.config.language ≠ Language.cxx →
       b.config.cpp_compatible_c = false → all_namespaces b = []) ∧
    (∀ (b : Bindings) (op : NamespaceOperation),
       b.config.language = Language.c → b.config.cpp_compat = false →
       open_close_namespaces b op = []) := by
  have h1 : ∀ b : Bindings, b.config.language ≠ Language.cxx →
      b.config.cpp_compatible_c = false → all_namespaces b = [] := by
    intro b hl hc
    simp [all_namespaces, beq_eq_false_iff_ne.mpr hl, hc]
  refine ⟨h1, ?_⟩
  intro b op hl hc
  have hcc : b.config.cpp_compatible_c = false := by
    simp [Config.cpp_compatible_c, hc]
  have hall : all_namespaces b = [] := by
    apply h1
    · rw [hl]
      intro hcontra
      exact Language.noConfusion hcontra
    · exact hcc
  simp [open_close_namespaces, hl, hall]

theorem plain_c_namespaces_empty_witness :
    open_close_namespaces cNsBindings NamespaceOperation.opOpen = [] :=
  plain_c_namespaces_empty.2 cNsBindings NamespaceOperation.opOpen rfl rfl

end Cbindgen

namespace Cbindgen

theorem fsLookup_fsSet (fs : FS) (p : String) (v : List Emit) :
    fsLookup (fsSet fs p v) p = some v := by
  simp [fsLookup, fsSet, List.find?_cons_of_pos]

/-- C4: on a destination that does not yet exist, a first write reports
"changed", and a second write of the same engine reports "unchanged",
leaves the filesystem untouched, and performs no file creation and no
write. -/
theorem write_to_file_idempotent
    (b : Bindings) (fs : FS) (dest : String)
    (h : b.noop = false) (hd : fsLookup fs dest = none) :
    (write_to_file b fs dest).changed = true ∧
    (write_to_file b (write_to_file b fs dest).fs dest).changed = false ∧
    (write_to_file b (write_to_file b fs dest).fs dest).fs =
      (write_to_file b fs dest).fs ∧
    FsEvent.createFile ∉ (write_to_file b (write_to_file b fs dest).fs dest).trace ∧
    FsEvent.writeBufferToFile ∉
      (write_to_file b (write_to_file b fs dest).fs dest).trace ∧
    FsEvent.streamRenderToFile ∉
      (write_to_file b (write_to_file b fs dest).fs dest).trace := by
  have h1 : write_to_file b fs dest =
      ⟨fsSet fs dest (write b), true,
       [FsEvent.createDirAll, FsEvent.createFile, FsEvent.streamRenderToFile]⟩ := by
    simp [write_to_file, h, hd]
  have h2 : write_to_file b (write_to_file b fs dest).fs dest =
      ⟨(write_to_file b fs dest).fs, false,
       [FsEvent.renderToBuffer, FsEvent.readOldFile]⟩ := by
    rw [h1]
    simp [write_to_file, h, fsLookup_fsSet]
  rw [h1] at h2 ⊢
  rw [h2]
  simp

theorem write_to_file_idempotent_witness :
    (write_to_file emptyBindings [] "out.h").changed = true ∧
    (write_to_file emptyBindings (write_to_file emptyBindings [] "out.h").fs
        "out.h").changed = false ∧
    (write_to_file emptyBindings (write_to_file emptyBindings [] "out.h").fs
        "out.h").fs = (write_to_file emptyBindings [] "out.h").fs ∧
    FsEvent.createFile ∉
      (write_to_file emptyBindings (write_to_file emptyBindings [] "out.h").fs
        "out.h").trace ∧
    FsEvent.writeBufferToFile ∉
      (write_to_file emptyBindings (write_to_file emptyBindings [] "out.h").fs
        "out.h").trace ∧
    FsEvent.streamRenderToFile ∉
      (write_to_file emptyBindings (write_to_file emptyBindings [] "out.h").fs
        "out.h").trace :=
  write_to_file_idempotent emptyBindings [] "out.h" rfl rfl

/-- C2 as stated is false: on a destination that does not yet exist, the
source streams the rendered output directly into the newly created file
and never renders into an in-memory buffer. -/
theorem write_to_file_streams_when_new_cex :
    FsEvent.streamRenderToFile ∈ (write_to_file emptyBindings [] "out.h").trace ∧
    FsEvent.renderToBuffer ∉ (write_to_file emptyBindings [] "out.h").trace := by
  refine ⟨by decide, by decide⟩

/-- C2 amended: when the destination already exists, the complete output
is rendered into an in-memory buffer (the first filesystem-level action)
and nothing is streamed to the destination; when the destination does not
exist, no in-memory buffer is rendered and the output is streamed
directly into the newly created file. -/
theorem write_to_file_buffers_only_when_existing
    (b : Bindings) (fs : FS) (dest : String) (h : b.noop = false) :
    (fsLookup fs dest ≠ none →
       FsEvent.streamRenderToFile ∉ (write_to_file b fs dest).trace ∧
       ∃ rest, (write_to_file b fs dest).trace = FsEvent.renderToBuffer :: rest) ∧
    (fsLookup fs dest = none →
       FsEvent.renderToBuffer ∉ (write_to_file b fs dest).trace ∧
       FsEvent.streamRenderToFile ∈ (write_to_file b fs dest).trace) := by
  constructor
  · intro hneq
    cases hd : fsLookup fs dest with
    | none => exact absurd hd hneq
    | some old =>
      by_cases hcmp : old ≠ write b
      · simp [write_to_file, h, hd, hcmp]
      · simp [write_to_file, h, hd, hcmp]
  · intro hd
    simp [write_to_file, h, hd]

theorem write_to_file_buffers_only_when_existing_witness :
    FsEvent.streamRenderToFile ∉
      (write_to_file emptyBindings [("out.h", write emptyBindings)] "out.h").trace ∧
    ∃ rest, (write_to_file emptyBindings [("out.h", write emptyBindings)]
      "out.h").trace = FsEvent.renderToBuffer :: rest :=
  (write_to_file_buffers_only_when_existing emptyBindings
    [("out.h", write emptyBindings)] "out.h" rfl).1 (by decide)

end Cbindgen

namespace Cbindgen

theorem iterates_succ_head (m : ItemMap TypedefDef) (p : BindgenPath) (k : Nat) :
    iterates m p (k + 1) = (stepTypedef m p).bind (fun q => iterates m q k) := by
  induction k with
  | zero =>
    show (some p).bind (stepTypedef m) = _
    cases h : stepTypedef m p <;> simp [iterates, h]
  | succ k ih =>
    show (iterates m p (k + 1)).bind (stepTypedef m) = _
    rw [ih]
    cases h : stepTypedef m p with
    | none => simp
    | some q => simp [iterates]

theorem resolveFuel_of_iterates {m : ItemMap TypedefDef} :
    ∀ (k : Nat) (p q : BindgenPath), iterates m p k = some q →
      stepTypedef m q = none → resolveFuel m (k + 1) p = some q := by
  intro k
  induction k with
  | zero =>
    intro p q hit hstop
    cases hit
    exact resolveFuel_stop 0 hstop
  | succ k ih =>
    intro p q hit hstop
    rw [iterates_succ_head] at hit
    cases hstep : stepTypedef m p with
    | none => rw [hstep] at hit; simp at hit
    | some r =>
      rw [hstep] at hit
      rw [resolveFuel_step _ hstep]
      exact ih r q hit hstop

theorem stepTypedef_mem_keys {m : ItemMap TypedefDef} {q : BindgenPath}
    (h : stepTypedef m q ≠ none) : q ∈ m.map Prod.fst := by
  unfold stepTypedef at h
  cases hq : ItemMap.itemsAt m q with
  | nil => rw [hq] at h; simp at h
  | cons a l =>
    have hmem : a ∈ ItemMap.itemsAt m q := by rw [hq]; exact List.mem_cons_self a l
    rcases List.mem_filterMap.mp hmem with ⟨e, he, hee⟩
    by_cases heq : e.1 = q
    · exact heq ▸ List.mem_map.mpr ⟨e, he, rfl⟩
    · simp [heq] at hee

/-- C9: on any typedef map whose alias graph has no cycle reachable from
the input path the resolution loop terminates (some fuel suffices), while
on the concrete alias cycle A→B→A the loop never stops: no amount of fuel
makes `resolveFuel` return. -/
theorem resolved_struct_path_termination :
    (∀ (m : ItemMap TypedefDef) (p : BindgenPath),
       NoAliasCycleFrom m p → ∃ n r, resolveFuel m n p = some r) ∧
    (∀ fuel, resolveFuel cycleTypedefMap fuel "A" = none) := by
  constructor
  · intro m p hnc
    by_cases hex : ∃ k q, iterates m p k = some q ∧ stepTypedef m q = none
    · rcases hex with ⟨k, q, hit, hstop⟩
      exact ⟨k + 1, q, resolveFuel_of_iterates k p q hit hstop⟩
    · push_neg at hex
      exfalso
      have htot : ∀ k : Nat, ∃ q, iterates m p k = some q := by
        intro k
        induction k with
        | zero => exact ⟨p, rfl⟩
        | succ k ih =>
          rcases ih with ⟨q, hq⟩
          have hstep : stepTypedef m q ≠ none := hex k q hq
          cases hs : stepTypedef m q with
          | none => exact absurd hs hstep
          | some r =>
            refine ⟨r, ?_⟩
            show (iterates m p k).bind (stepTypedef m) = some r
            rw [hq]
            simp [hs]
      classical
      let f : Nat → BindgenPath := fun k => (iterates m p k).getD ""
      have hfk : ∀ k, iterates m p k = some (f k) := by
        intro k
        rcases htot k with ⟨q, hq⟩
        simp [f, hq]
      have hmaps : ∀ k ∈ Finset.range (m.length + 1),
          f k ∈ (m.map Prod.fst).toFinset := by
        intro k _
        have : stepTypedef m (f k) ≠ none := hex k (f k) (hfk k)
        exact List.mem_toFinset.mpr (stepTypedef_mem_keys this)
      have hcard : (m.map Prod.fst).toFinset.card <
          (Finset.range (m.length + 1)).card := by
        rw [Finset.card_range]
        calc (m.map Prod.fst).toFinset.card ≤ (m.map Prod.fst).length :=
              List.toFinset_card_le _
          _ = m.length := List.length_map _ _
          _ < m.length + 1 := Nat.lt_succ_self _
      rcases Finset.exists_ne_map_eq_of_card_lt_of_maps_to hcard hmaps with
        ⟨i, _, j, _, hij, hfij⟩
      rcases Nat.lt_or_ge i j with hlt | hge
      · exact hnc i j (f i) hlt (hfk i) (hfij ▸ hfk j)
      · have hlt : j < i := Nat.lt_of_le_of_ne hge (fun e => hij e.symm)
        exact hnc j i (f j) hlt (hfk j) (hfij ▸ hfk i)
  · have hAB : stepTypedef cycleTypedefMap "A" = some "B" := by decide
    have hBA : stepTypedef cycleTypedefMap "B" = some "A" := by decide
    have key : ∀ fuel, resolveFuel cycleTypedefMap fuel "A" = none ∧
        resolveFuel cycleTypedefMap fuel "B" = none := by
      intro fuel
      induction fuel with
      | zero => exact ⟨rfl, rfl⟩
      | succ n ih =>
        refine ⟨?_, ?_⟩
        · rw [resolveFuel_step _ hAB]; exact ih.2
        · rw [resolveFuel_step _ hBA]; exact ih.1
    exact fun fuel => (key fuel).1

theorem resolved_struct_path_termination_witness :
    ∃ n r, resolveFuel ([] : ItemMap TypedefDef) n "A" = some r :=
  resolved_struct_path_termination.1 [] "A" (by
    intro i j q hij hi hj
    have hnone : ∀ k, iterates ([] : ItemMap TypedefDef) "A" (k + 1) = none := by
      intro k
      cases h : iterates ([] : ItemMap TypedefDef) "A" k with
      | none => show (iterates _ _ k).bind _ = none; rw [h]; rfl
      | some q' =>
        show (iterates _ _ k).bind _ = none
        rw [h]
        simp [stepTypedef, ItemMap.itemsAt]
    cases j with
    | zero => omega
    | succ j' => rw [hnone j'] at hj; exact Option.noConfusion hj)

end Cbindgen

namespace Cbindgen

theorem all_namespaces_ne_nil_not_cython {b : Bindings}
    (h : all_namespaces b ≠ []) :
    (b.config.language == Language.cython) = false := by
  cases hl : b.config.language with
  | c => rfl
  | cxx => rfl
  | cython =>
    exfalso
    apply h
    simp [all_namespaces, hl, Config.cpp_compatible_c]

/-- C6: with a non-empty resolved namespace list, Close emits the closing
construct for exactly the namespaces Open emits, in exactly reversed
order, wrapped in the same dual-linkage guard opening and the same
trailing line break and guard close. -/
theorem namespace_open_close_symmetry (b : Bindings)
    (h : all_namespaces b ≠ []) :
    open_namespaces b =
      nsGuardPre b ++ (all_namespaces b).flatMap nsOpenLine ++ nsGuardPost b ∧
    close_namespaces b =
      nsGuardPre b ++ ((all_namespaces b).reverse).flatMap nsCloseLine ++
        nsGuardPost b := by
  have hcy := all_namespaces_ne_nil_not_cython h
  have hne : (all_namespaces b).isEmpty = false := by
    simp [List.isEmpty_eq_false, h]
  constructor
  · unfold open_namespaces open_close_namespaces
    rw [hcy]
    simp only [Bool.false_eq_true, if_false, hne]
    simp [nsGuardPre, nsGuardPost, nsOpenLine, List.append_assoc]
    rfl
  · unfold close_namespaces open_close_namespaces
    rw [hcy]
    simp only [Bool.false_eq_true, if_false, hne]
    simp [nsGuardPre, nsGuardPost, nsCloseLine, List.append_assoc]
    rfl

theorem namespace_open_close_symmetry_witness :
    close_namespaces cxxNsBindings =
      nsGuardPre cxxNsBindings ++
        ((all_namespaces cxxNsBindings).reverse).flatMap nsCloseLine ++
        nsGuardPost cxxNsBindings :=
  (namespace_open_close_symmetry cxxNsBindings (by decide)).2

/-- C7: `write_headers` emits nothing beyond the preamble — it skips the
entire include/import block — exactly when the "no includes" flag is set,
the system and local include lists are empty, the Cython import table is
empty or the dialect is not Cython, and no after-includes text is
configured. -/
theorem write_headers_include_block_skip (b : Bindings) (h : b.noop = false) :
    write_headers b = headerPreamble b ↔
      (b.config.no_includes = true ∧ b.config.sys_includes = [] ∧
       b.config.includes = [] ∧
       (b.config.cython_cimports = [] ∨ b.config.language ≠ Language.cython) ∧
       b.config.after_includes = none) := by
  have hw : write_headers b = headerPreamble b ++ includeBlock b := by
    simp [write_headers, h]
  rw [hw, List.append_right_eq_self]
  constructor
  · intro hblk
    have hskip : skipIncludeBlock b.config = true := by
      by_contra hns
      have : includeBlock b = Emit.newLineIfNotStart ::
          ((if !b.config.no_includes then standardIncludes b.config else []) ++
           b.config.sys_includes.flatMap
             (fun i => [Emit.str ("#include <" ++ i ++ ">"), Emit.newLine]) ++
           b.config.includes.flatMap
             (fun i => [Emit.str ("#include \"" ++ i ++ "\""), Emit.newLine]) ++
           (if b.config.language == Language.cython then
              b.config.cython_cimports.flatMap
                (fun mi => [Emit.str ("from " ++ mi.1 ++ " cimport " ++
                                      String.intercalate ", " mi.2), Emit.newLine])
            else []) ++
           (match b.config.after_includes with
            | some l => [Emit.str l, Emit.newLine]
            | none => [])) := by
        unfold includeBlock
        rw [if_neg]
        simp [hns]
      rw [this] at hblk
      exact List.noConfusion hblk
    unfold skipIncludeBlock at hskip
    simp only [Bool.and_eq_true, Bool.or_eq_true, Bool.not_eq_true',
               List.isEmpty_iff, Option.isNone_iff_eq_none, beq_eq_false_iff_ne]
      at hskip
    exact ⟨hskip.1.1.1.1, hskip.1.1.1.2, hskip.1.1.2, hskip.1.2, hskip.2⟩
  · intro hc
    have hskip : skipIncludeBlock b.config = true := by
      unfold skipIncludeBlock
      simp only [Bool.and_eq_true, Bool.or_eq_true, Bool.not_eq_true',
                 List.isEmpty_iff, Option.isNone_iff_eq_none, beq_eq_false_iff_ne]
      exact ⟨⟨⟨⟨hc.1, hc.2.1⟩, hc.2.2.1⟩, hc.2.2.2.1⟩, hc.2.2.2.2⟩
    simp [includeBlock, hskip]

theorem write_headers_include_block_skip_witness :
    write_headers emptyBindings = headerPreamble emptyBindings :=
  (write_headers_include_block_skip emptyBindings rfl).mpr
    ⟨rfl, rfl, rfl, Or.inl rfl, rfl⟩

end Cbindgen

namespace Cbindgen

theorem isItemOut_str (s : String) : isItemOut (Emit.str s) = false := rfl

theorem isItemOut_newLine : isItemOut Emit.newLine = false := rfl

theorem isItemOut_newLineIfNotStart : isItemOut Emit.newLineIfNotStart = false := rfl

theorem isItemOut_openBrace : isItemOut Emit.openBrace = false := rfl

theorem isItemOut_closeBrace (x : Bool) : isItemOut (Emit.closeBrace x) = false := rfl

theorem outsOf_append (xs ys : List Emit) :
    outsOf (xs ++ ys) = outsOf xs ++ outsOf ys :=
  List.filter_append _ _

theorem flatMap_ite_singleton {α β : Type} (l : List α) (p : α → Bool)
    (f : α → β) :
    (l.flatMap (fun x => if p x then [f x] else [])) = (l.filter p).map f := by
  induction l with
  | nil => rfl
  | cons a t ih => cases hp : p a <;> simp [List.filter_cons, hp, ih]

theorem outsOf_guard_loop {α : Type} (l : List α) (p : α → Bool) (f : α → Emit)
    (hf : ∀ x, isItemOut (f x) = true) :
    outsOf (l.flatMap (fun x =>
      if p x then [Emit.newLineIfNotStart, f x, Emit.newLine] else [])) =
      (l.filter p).map f := by
  rw [outsOf, List.filter_flatMap]
  rw [show (fun x => List.filter isItemOut
        (if p x then [Emit.newLineIfNotStart, f x, Emit.newLine] else [])) =
      (fun x => if p x then [f x] else []) from ?_]
  · exact flatMap_ite_singleton l p f
  · funext x
    cases hp : p x <;>
      simp [hp, List.filter_cons, isItemOut_newLine, isItemOut_newLineIfNotStart,
            hf x]

theorem outsOf_skip_loop {α : Type} (l : List α) (p : α → Bool) (f : α → Emit)
    (hf : ∀ x, isItemOut (f x) = true) :
    outsOf (l.flatMap (fun x =>
      if p x then [] else [Emit.newLineIfNotStart, f x, Emit.newLine])) =
      (l.filter (fun x => !p x)).map f := by
  rw [outsOf, List.filter_flatMap]
  rw [show (fun x => List.filter isItemOut
        (if p x then [] else [Emit.newLineIfNotStart, f x, Emit.newLine])) =
      (fun x => if !p x then [f x] else []) from ?_]
  · exact flatMap_ite_singleton l (fun x => !p x) f
  · funext x
    cases hp : p x <;>
      simp [hp, List.filter_cons, isItemOut_newLine, isItemOut_newLineIfNotStart,
            hf x]

theorem outsOf_plain_loop {α : Type} (l : List α) (f : α → Emit)
    (hf : ∀ x, isItemOut (f x) = true) :
    outsOf (l.flatMap (fun x =>
      [Emit.newLineIfNotStart, f x, Emit.newLine])) = l.map f := by
  rw [outsOf, List.filter_flatMap]
  rw [show (fun x => List.filter isItemOut
        [Emit.newLineIfNotStart, f x, Emit.newLine]) =
      (fun x => [f x]) from ?_]
  · induction l with
    | nil => rfl
    | cons a t ih => simp [ih]
  · funext x
    simp [List.filter_cons, isItemOut_newLine, isItemOut_newLineIfNotStart, hf x]

theorem outsOf_headerPreamble (b : Bindings) : outsOf (headerPreamble b) = [] := by
  unfold outsOf headerPreamble
  cases b.config.header <;> cases b.config.include_guard <;>
    cases b.config.autogen_warning <;>
    simp [List.filter_append, apply_ite (List.filter isItemOut),
          List.filter_cons, isItemOut_str, isItemOut_newLine,
          isItemOut_newLineIfNotStart, isItemOut_openBrace, isItemOut_closeBrace]

theorem outsOf_includeBlock (b : Bindings) : outsOf (includeBlock b) = [] := by
  unfold outsOf includeBlock standardIncludes
  cases b.config.after_includes <;> cases b.config.language <;>
    simp [List.filter_append, apply_ite (List.filter isItemOut),
          List.filter_cons, isItemOut_str, isItemOut_newLine,
          isItemOut_newLineIfNotStart, isItemOut_openBrace, isItemOut_closeBrace,
          List.filter_flatMap]

theorem outsOf_write_headers (b : Bindings) : outsOf (write_headers b) = [] := by
  unfold write_headers
  cases b.noop
  · rw [if_neg (by simp)]
    rw [outsOf_append, outsOf_headerPreamble, outsOf_includeBlock]
    rfl
  · rfl

theorem outsOf_open_close_namespaces (b : Bindings) (op : NamespaceOperation) :
    outsOf (open_close_namespaces b op) = [] := by
  unfold outsOf open_close_namespaces
  cases b.config.language <;> cases op <;>
    simp [List.filter_append, apply_ite (List.filter isItemOut),
          List.filter_cons, isItemOut_str, isItemOut_newLine,
          isItemOut_newLineIfNotStart, isItemOut_openBrace, isItemOut_closeBrace,
          List.filter_flatMap]

theorem outsOf_trailerEmits (b : Bindings) : outsOf (trailerEmits b) = [] := by
  unfold outsOf trailerEmits
  cases b.config.include_guard <;> cases b.config.trailer <;>
    simp [List.filter_append, apply_ite (List.filter isItemOut),
          List.filter_cons, isItemOut_str, isItemOut_newLine,
          isItemOut_newLineIfNotStart, isItemOut_openBrace, isItemOut_closeBrace]

end Cbindgen

namespace Cbindgen

theorem isItemOut_constOut (n : String) : isItemOut (Emit.constOut n) = true := rfl

theorem isItemOut_itemOut (n : String) : isItemOut (Emit.itemOut n) = true := rfl

theorem isItemOut_globalOut (n : String) : isItemOut (Emit.globalOut n) = true := rfl

theorem isItemOut_functionOut (n : String) : isItemOut (Emit.functionOut n) = true := rfl

theorem flatMap_singleton_map {α β : Type} (l : List α) (f : α → β) :
    l.flatMap (fun x => [f x]) = l.map f := by
  induction l with
  | nil => rfl
  | cons a t ih => simp [ih]

theorem outsOf_bodyEmits (b : Bindings) :
    outsOf (bodyEmits b) =
      (b.constants.filter (fun c => c.uses_only_primitive_types)).map
        (fun c => Emit.constOut c.name) ++
      (b.items.filter (fun i => !i.no_export)).map
        (fun i => Emit.itemOut i.name) ++
      (b.constants.filter (fun c => !c.uses_only_primitive_types)).map
        (fun c => Emit.constOut c.name) ++
      b.globals.map Emit.globalOut ++
      b.functions.map Emit.functionOut := by
  have hGL := outsOf_plain_loop b.globals Emit.globalOut (fun x => rfl)
  have hFL := outsOf_plain_loop b.functions Emit.functionOut (fun x => rfl)
  unfold bodyEmits
  simp only [outsOf_append]
  rw [outsOf_guard_loop b.constants (fun c => c.uses_only_primitive_types)
        (fun c => Emit.constOut c.name) (fun c => rfl),
      outsOf_skip_loop b.items (fun i => i.no_export)
        (fun i => Emit.itemOut i.name) (fun i => rfl),
      outsOf_guard_loop b.constants (fun c => !c.uses_only_primitive_types)
        (fun c => Emit.constOut c.name) (fun c => rfl)]
  by_cases hc : (!b.functions.isEmpty || !b.globals.isEmpty) = true
  · cases hun : b.config.using_namespaces <;>
      simp [hc, hun, apply_ite outsOf, outsOf_append, hGL, hFL, outsOf,
            apply_ite (List.filter isItemOut),
            List.filter_append, List.filter_flatMap, List.filter_cons,
            isItemOut_str, isItemOut_newLine, isItemOut_newLineIfNotStart,
            isItemOut_constOut, isItemOut_itemOut, isItemOut_globalOut,
            isItemOut_functionOut, flatMap_singleton_map,
            List.append_assoc]
  · have hc' : (!b.functions.isEmpty || !b.globals.isEmpty) = false :=
      Bool.not_eq_true _ ▸ Bool.of_not_eq_true hc
    have hf : b.functions = [] := by
      rcases Bool.or_eq_false_iff.mp hc' with ⟨h1, _⟩
      simpa [List.isEmpty_iff] using h1
    have hg : b.globals = [] := by
      rcases Bool.or_eq_false_iff.mp hc' with ⟨_, h2⟩
      simpa [List.isEmpty_iff] using h2
    simp only [hc', Bool.false_eq_true, if_false, hf, hg]
    simp [apply_ite outsOf, outsOf, List.filter_cons,
          apply_ite (List.filter isItemOut), isItemOut_str, List.append_assoc]

end Cbindgen

namespace Cbindgen

theorem str_not_mem_guard_loop {α : Type} (s : String) (l : List α)
    (p : α → Bool) (f : α → Emit) (hf : ∀ x, isItemOut (f x) = true) :
    Emit.str s ∉ l.flatMap (fun x =>
      if p x then [Emit.newLineIfNotStart, f x, Emit.newLine] else []) := by
  intro hmem
  rcases List.mem_flatMap.mp hmem with ⟨x, _, hx⟩
  by_cases hp : p x = true
  · rw [if_pos hp] at hx
    simp only [List.mem_cons, List.not_mem_nil, or_false] at hx
    rcases hx with hx | hx | hx
    · exact Emit.noConfusion hx
    · have := hf x
      rw [← hx] at this
      exact Bool.noConfusion this
    · exact Emit.noConfusion hx
  · rw [if_neg hp] at hx
    exact List.not_mem_nil _ hx

theorem str_not_mem_skip_loop {α : Type} (s : String) (l : List α)
    (p : α → Bool) (f : α → Emit) (hf : ∀ x, isItemOut (f x) = true) :
    Emit.str s ∉ l.flatMap (fun x =>
      if p x then [] else [Emit.newLineIfNotStart, f x, Emit.newLine]) := by
  intro hmem
  rcases List.mem_flatMap.mp hmem with ⟨x, _, hx⟩
  by_cases hp : p x = true
  · rw [if_pos hp] at hx
    exact List.not_mem_nil _ hx
  · rw [if_neg hp] at hx
    simp only [List.mem_cons, List.not_mem_nil, or_false] at hx
    rcases hx with hx | hx | hx
    · exact Emit.noConfusion hx
    · have := hf x
      rw [← hx] at this
      exact Bool.noConfusion this
    · exact Emit.noConfusion hx

theorem str_not_mem_plain_loop {α : Type} (s : String) (l : List α)
    (f : α → Emit) (hf : ∀ x, isItemOut (f x) = true) :
    Emit.str s ∉ l.flatMap (fun x =>
      [Emit.newLineIfNotStart, f x, Emit.newLine]) := by
  intro hmem
  rcases List.mem_flatMap.mp hmem with ⟨x, _, hx⟩
  simp only [List.mem_cons, List.not_mem_nil, or_false] at hx
  rcases hx with hx | hx | hx
  · exact Emit.noConfusion hx
  · have := hf x
    rw [← hx] at this
    exact Bool.noConfusion this
  · exact Emit.noConfusion hx

theorem using_namespace_line_ne_extern_open (n : String) :
    ("using namespace " ++ n ++ ";") ≠ "extern \"C\" \x7b" := by
  intro h
  have hlen := congrArg String.length h
  rw [String.length_append, String.length_append] at hlen
  have h1 : ("using namespace ").length = 16 := rfl
  have h2 : (";").length = 1 := rfl
  have h3 : ("extern \"C\" \x7b").length = 12 := rfl
  omega

theorem extern_mem_bodyEmits (b : Bindings) :
    Emit.str "extern \"C\" \x7b" ∈ bodyEmits b ↔
      ((b.functions ≠ [] ∨ b.globals ≠ []) ∧
       (b.config.language = Language.cxx ∨ b.config.cpp_compatible_c = true)) := by
  have h1 := str_not_mem_guard_loop "extern \"C\" \x7b" b.constants
    (fun c => c.uses_only_primitive_types) (fun c => Emit.constOut c.name)
    (fun c => rfl)
  have h2 := str_not_mem_skip_loop "extern \"C\" \x7b" b.items
    (fun i => i.no_export) (fun i => Emit.itemOut i.name) (fun i => rfl)
  have h3 := str_not_mem_guard_loop "extern \"C\" \x7b" b.constants
    (fun c => !c.uses_only_primitive_types) (fun c => Emit.constOut c.name)
    (fun c => rfl)
  have h4 := str_not_mem_plain_loop "extern \"C\" \x7b" b.globals
    Emit.globalOut (fun x => rfl)
  have h5 := str_not_mem_plain_loop "extern \"C\" \x7b" b.functions
    Emit.functionOut (fun x => rfl)
  unfold bodyEmits
  by_cases hc : (!b.functions.isEmpty || !b.globals.isEmpty) = true
  · have hne : b.functions ≠ [] ∨ b.globals ≠ [] := by
      rcases Bool.or_eq_true_iff.mp hc with h | h
      · exact Or.inl (by simpa [List.isEmpty_eq_false] using h)
      · exact Or.inr (by simpa [List.isEmpty_eq_false] using h)
    cases hun : b.config.using_namespaces with
    | none =>
      simp [hc, hun, List.mem_append, h1, h2, h3, h4, h5, hne,
            apply_ite (fun l => Emit.str "extern \"C\" \x7b" ∈ l)]
    | some l =>
      simp [hc, hun, List.mem_append, h1, h2, h3, h4, h5, hne,
            apply_ite (fun l => Emit.str "extern \"C\" \x7b" ∈ l),
            List.mem_flatMap, using_namespace_line_ne_extern_open]
      intro _ x _ hx
      exact absurd hx.symm (using_namespace_line_ne_extern_open x)
  · have hc' : (!b.functions.isEmpty || !b.globals.isEmpty) = false :=
      Bool.not_eq_true _ ▸ Bool.of_not_eq_true hc
    have hf : b.functions = [] := by
      rcases Bool.or_eq_false_iff.mp hc' with ⟨hh, _⟩
      simpa [List.isEmpty_iff] using hh
    have hg : b.globals = [] := by
      rcases Bool.or_eq_false_iff.mp hc' with ⟨_, hh⟩
      simpa [List.isEmpty_iff] using hh
    simp [hc', hf, hg, List.mem_append, h1, h2, h3,
          apply_ite (fun l => Emit.str "extern \"C\" \x7b" ∈ l)]

end Cbindgen

namespace Cbindgen

theorem outsOf_open_namespaces (b : Bindings) : outsOf (open_namespaces b) = [] :=
  outsOf_open_close_namespaces b NamespaceOperation.opOpen

theorem outsOf_close_namespaces (b : Bindings) : outsOf (close_namespaces b) = [] :=
  outsOf_open_close_namespaces b NamespaceOperation.opClose

/-- C8: the body emission order of `write` is fixed: primitive-only
constants in discovery order, then items in discovery order skipping
export-suppressed ones, then the remaining constants, then every global
and every function in discovery order; and the linkage-bridging
`extern "C"` opener appears in the body exactly when at least one function
or global exists and the dialect is native-C++ or cpp-compatible C. -/
theorem write_body_emission_order (b : Bindings) (h : b.noop = false) :
    outsOf (write b) =
      (b.constants.filter (fun c => c.uses_only_primitive_types)).map
        (fun c => Emit.constOut c.name) ++
      (b.items.filter (fun i => !i.no_export)).map
        (fun i => Emit.itemOut i.name) ++
      (b.constants.filter (fun c => !c.uses_only_primitive_types)).map
        (fun c => Emit.constOut c.name) ++
      b.globals.map Emit.globalOut ++
      b.functions.map Emit.functionOut ∧
    (Emit.str "extern \"C\" \x7b" ∈ bodyEmits b ↔
      ((b.functions ≠ [] ∨ b.globals ≠ []) ∧
       (b.config.language = Language.cxx ∨ b.config.cpp_compatible_c = true))) := by
  refine ⟨?_, extern_mem_bodyEmits b⟩
  have hw : write b = write_headers b ++ open_namespaces b ++ bodyEmits b ++
      close_namespaces b ++ trailerEmits b := by
    simp [write, h, open_namespaces, close_namespaces]
  rw [hw]
  simp only [outsOf_append, outsOf_write_headers, outsOf_open_namespaces,
             outsOf_close_namespaces, outsOf_trailerEmits, outsOf_bodyEmits,
             List.nil_append, List.append_nil]

theorem write_body_emission_order_witness :
    outsOf (write sampleBindings) =
      (sampleBindings.constants.filter (fun c => c.uses_only_primitive_types)).map
        (fun c => Emit.constOut c.name) ++
      (sampleBindings.items.filter (fun i => !i.no_export)).map
        (fun i => Emit.itemOut i.name) ++
      (sampleBindings.constants.filter
        (fun c => !c.uses_only_primitive_types)).map
        (fun c => Emit.constOut c.name) ++
      sampleBindings.globals.map Emit.globalOut ++
      sampleBindings.functions.map Emit.functionOut ∧
    (Emit.str "extern \"C\" \x7b" ∈ bodyEmits sampleBindings ↔
      ((sampleBindings.functions ≠ [] ∨ sampleBindings.globals ≠ []) ∧
       (sampleBindings.config.language = Language.cxx ∨
        sampleBindings.config.cpp_compatible_c = true))) :=
  write_body_emission_order sampleBindings rfl

end Cbindgen

namespace Cbindgen

theorem escapeSpaces_no_nl {l : List Char} (h : '\n' ∉ l) :
    '\n' ∉ escapeSpaces l := by
  induction l with
  | nil => simp [escapeSpaces]
  | cons c t ih =>
    simp only [List.mem_cons, not_or] at h
    obtain ⟨h1, h2⟩ := h
    by_cases hsp : c = ' '
    · simp only [escapeSpaces, if_pos hsp, List.mem_cons, not_or]
      exact ⟨by decide, by decide, ih h2⟩
    · simp only [escapeSpaces, if_neg hsp, List.mem_cons, not_or]
      exact ⟨h1, ih h2⟩

theorem splitOnNl_cons_eq (c : Char) (rest : List Char) :
    splitOnNl (c :: rest) =
      if c = '\n' then [] :: splitOnNl rest
      else
        match splitOnNl rest with
        | [] => [[c]]
        | l :: ls => (c :: l) :: ls := rfl

theorem splitOnNl_append_nl {xs : List Char} (ys : List Char)
    (h : '\n' ∉ xs) :
    splitOnNl (xs ++ '\n' :: ys) = xs :: splitOnNl ys := by
  induction xs with
  | nil =>
    show splitOnNl ('\n' :: ys) = [] :: splitOnNl ys
    rw [splitOnNl_cons_eq, if_pos rfl]
  | cons c t ih =>
    simp only [List.mem_cons, not_or] at h
    obtain ⟨h1, h2⟩ := h
    have hc : ¬(c = '\n') := fun e => h1 e.symm
    show splitOnNl (c :: (t ++ '\n' :: ys)) = _
    rw [splitOnNl_cons_eq, if_neg hc, ih h2]

theorem splitOnNl_contChunks :
    ∀ (rest : List (List Char)) (s : List Char), '\n' ∉ s →
      (∀ t ∈ rest, '\n' ∉ t) →
      splitOnNl (indent4 ++ s ++
        (rest.flatMap (fun t => ' ' :: '\\' :: '\n' :: (indent4 ++ t))) ++
        ['\n']) = contLinesSpec (s :: rest) := by
  intro rest
  induction rest with
  | nil =>
    intro s hs _
    have hnn : '\n' ∉ indent4 ++ s := by
      simp only [List.mem_append, not_or]
      exact ⟨by decide, hs⟩
    have he : indent4 ++ s ++ [] ++ ['\n'] = (indent4 ++ s) ++ '\n' :: [] := by
      simp
    rw [List.flatMap_nil] at *
    rw [he, splitOnNl_append_nl [] hnn]
    rfl
  | cons t rest ih =>
    intro s hs hmem
    have h1 : '\n' ∉ indent4 ++ s ++ [' ', '\\'] := by
      simp only [List.mem_append, not_or]
      exact ⟨⟨by decide, hs⟩, by decide⟩
    have he : indent4 ++ s ++
        ((' ' :: '\\' :: '\n' :: (indent4 ++ t)) ++
          (rest.flatMap (fun u => ' ' :: '\\' :: '\n' :: (indent4 ++ u)))) ++
        ['\n'] =
        (indent4 ++ s ++ [' ', '\\']) ++
          '\n' :: (indent4 ++ t ++
            (rest.flatMap (fun u => ' ' :: '\\' :: '\n' :: (indent4 ++ u))) ++
            ['\n']) := by
      simp [List.append_assoc]
    rw [List.flatMap_cons, he, splitOnNl_append_nl _ h1,
        ih t (hmem t (List.mem_cons_self t rest))
          (fun u hu => hmem u (List.mem_cons_of_mem t hu))]
    rfl

end Cbindgen

namespace Cbindgen

theorem contLinesSpec_length :
    ∀ (rest : List (List Char)) (s : List Char),
      (contLinesSpec (s :: rest)).length = rest.length + 2 := by
  intro rest
  induction rest with
  | nil => intro s; rfl
  | cons t r ih =>
    intro s
    show ((indent4 ++ s ++ [' ', '\\']) :: contLinesSpec (t :: r)).length = _
    simp [ih t]

theorem depfileLinesSpec_length (hdr : List Char) (srcs : List (List Char)) :
    (depfileLinesSpec hdr srcs).length = srcs.length + 2 := by
  cases srcs with
  | nil => rfl
  | cons s rest =>
    show ((hdr ++ [':', ' ', '\\']) :: contLinesSpec (s :: rest)).length = _
    simp [contLinesSpec_length rest s]

/-- C5: with no configuration-file path, the depfile consists of the
escaped canonicalized header line followed by exactly one four-space
indented continuation line per contributing source file (each but the last
ending in a space and a continuation backslash), the canonicalized source
paths sorted lexicographically, and exactly one trailing newline (the
final empty entry of the line split). -/
theorem generate_depfile_line_shape (b : Bindings) (canon : String → String)
    (header_path : String)
    (hcfg : b.config.config_path = none)
    (hh : '\n' ∉ (canon header_path).data)
    (hs : ∀ s ∈ b.source_files, '\n' ∉ (canon s).data) :
    splitOnNl (generate_depfile b canon header_path) =
      depfileLinesSpec (escapeSpaces (canon header_path).data)
        ((sortPaths (b.source_files.map canon)).map
          (fun s => escapeSpaces s.data)) ∧
    List.Sorted (fun x y => x ≤ y) (sortPaths (b.source_files.map canon)) ∧
    (sortPaths (b.source_files.map canon)).length = b.source_files.length ∧
    (splitOnNl (generate_depfile b canon header_path)).length =
      b.source_files.length + 2 := by
  have hmem : ∀ t ∈ sortPaths (b.source_files.map canon), '\n' ∉ t.data := by
    intro t ht
    have ht2 : t ∈ b.source_files.map canon :=
      ((List.perm_insertionSort (fun x y => x ≤ y)
        (b.source_files.map canon)).mem_iff).mp ht
    rcases List.mem_map.mp ht2 with ⟨s, hsm, rfl⟩
    exact hs s hsm
  have hlen : (sortPaths (b.source_files.map canon)).length =
      b.source_files.length := by
    rw [sortPaths, List.length_insertionSort, List.length_map]
  have hesc : '\n' ∉ escapeSpaces (canon header_path).data :=
    escapeSpaces_no_nl hh
  have hmain : splitOnNl (generate_depfile b canon header_path) =
      depfileLinesSpec (escapeSpaces (canon header_path).data)
        ((sortPaths (b.source_files.map canon)).map
          (fun s => escapeSpaces s.data)) := by
    unfold generate_depfile depfileContent
    rw [hcfg]
    simp only [Option.toList, List.append_nil]
    cases hsrt : sortPaths (b.source_files.map canon) with
    | nil =>
      have he : (escapeSpaces (canon header_path).data ++
          ':' :: (([] : List String).flatMap (fun s =>
            ' ' :: '\\' :: '\n' :: (indent4 ++ escapeSpaces s.data)))) ++
          ['\n'] =
          (escapeSpaces (canon header_path).data ++ [':']) ++ '\n' :: [] := by
        simp
      rw [he, splitOnNl_append_nl []
        (by simp only [List.mem_append, not_or]; exact ⟨hesc, by decide⟩)]
      rfl
    | cons t rest =>
      have hflat : (t :: rest).flatMap (fun s =>
          ' ' :: '\\' :: '\n' :: (indent4 ++ escapeSpaces s.data)) =
          (escapeSpaces t.data :: rest.map (fun s => escapeSpaces s.data)).flatMap
            (fun u => ' ' :: '\\' :: '\n' :: (indent4 ++ u)) := by
        rw [← List.map_cons (fun s => escapeSpaces s.data) t rest,
            List.flatMap_map]
      have hmem2 : ∀ u ∈ rest.map (fun s => escapeSpaces s.data), '\n' ∉ u := by
        intro u hu
        rcases List.mem_map.mp hu with ⟨v, hv, rfl⟩
        exact escapeSpaces_no_nl (hmem v (hsrt ▸ List.mem_cons_of_mem t hv))
      have htn : '\n' ∉ escapeSpaces t.data :=
        escapeSpaces_no_nl (hmem t (hsrt ▸ List.mem_cons_self t rest))
      have h1 : '\n' ∉ escapeSpaces (canon header_path).data ++
          [':', ' ', '\\'] := by
        simp only [List.mem_append, not_or]
        exact ⟨hesc, by decide⟩
      have he : (escapeSpaces (canon header_path).data ++
          ':' :: ((escapeSpaces t.data :: rest.map (fun s =>
            escapeSpaces s.data)).flatMap
            (fun u => ' ' :: '\\' :: '\n' :: (indent4 ++ u)))) ++ ['\n'] =
          (escapeSpaces (canon header_path).data ++ [':', ' ', '\\']) ++
            '\n' :: (indent4 ++ escapeSpaces t.data ++
              ((rest.map (fun s => escapeSpaces s.data)).flatMap
                (fun u => ' ' :: '\\' :: '\n' :: (indent4 ++ u))) ++ ['\n']) := by
        simp [List.append_assoc]
      rw [hflat, he, splitOnNl_append_nl _ h1,
          splitOnNl_contChunks (rest.map (fun s => escapeSpaces s.data))
            (escapeSpaces t.data) htn hmem2]
      rfl
  refine ⟨hmain, ?_, hlen, ?_⟩
  · exact List.sorted_insertionSort _ _
  · rw [hmain, depfileLinesSpec_length, List.length_map, hlen]

end Cbindgen

namespace Cbindgen

theorem generate_depfile_line_shape_witness :
    splitOnNl (generate_depfile depBindings id "h.h") =
      depfileLinesSpec (escapeSpaces (id "h.h" : String).data)
        ((sortPaths (depBindings.source_files.map id)).map
          (fun s => escapeSpaces s.data)) ∧
    List.Sorted (fun x y => x ≤ y) (sortPaths (depBindings.source_files.map id)) ∧
    (sortPaths (depBindings.source_files.map id)).length =
      depBindings.source_files.length ∧
    (splitOnNl (generate_depfile depBindings id "h.h")).length =
      depBindings.source_files.length + 2 :=
  generate_depfile_line_shape depBindings id "h.h" rfl (by decide) (by decide)

end Cbindgen
